import Mathlib

/-!
Verification of `finetune/adapter_v2.py` (lit-gpt adapter-v2 finetuning driver).

The module-level hyperparameter constants, the `main` model-preparation
pipeline, and the `train` loop are embedded as pure Lean functions; the train
loop is a state machine over an explicit event trace.  Python's float `//` is
modelled as the rational floor, and Python ints as `Nat`/`Int`.
-/

namespace AdapterV2

/-- Python floor division `a // b` on (non-negative) numeric operands,
as used at module level of the script. -/
def pyFloorDiv (a b : ℚ) : ℤ := ⌊a / b⌋

/-- Module constant `eval_interval = 600`. -/
def eval_interval : ℕ := 600

/-- Module constant `save_interval = 1000`. -/
def save_interval : ℕ := 1000

/-- Module constant `log_interval = 1`. -/
def log_interval : ℕ := 1

/-- Module constant `devices = 1`. -/
def devices : ℕ := 1

/-- Module constant `learning_rate = 3e-3`. -/
def learning_rate : ℚ := 3 / 1000

/-- Module constant `batch_size = 128 / devices` (true division, a Python float). -/
def batch_size : ℚ := 128 / (devices : ℚ)

/-- Module constant `micro_batch_size = 2`. -/
def micro_batch_size : ℕ := 2

/-- Module constant `gradient_accumulation_iters = batch_size // micro_batch_size`. -/
def gradient_accumulation_iters : ℤ := pyFloorDiv batch_size (micro_batch_size : ℚ)

/-- Module constant `epoch_size = 50000`. -/
def epoch_size : ℕ := 50000

/-- Module constant `num_epochs = 5`. -/
def num_epochs : ℕ := 5

/-- Module constant `max_iters = num_epochs * (epoch_size // micro_batch_size) // devices`
(all-integer arithmetic in Python). -/
def max_iters : ℕ := num_epochs * (epoch_size / micro_batch_size) / devices

/-- Module constant `weight_decay = 0.02`. -/
def weight_decay : ℚ := 2 / 100

/-- Module constant `warmup_steps = 2 * (epoch_size // micro_batch_size) // devices
  // gradient_accumulation_iters`: the first two `//` are integer floor
divisions, the last one divides by a Python float. -/
def warmup_steps : ℤ :=
  pyFloorDiv ((2 * (epoch_size / micro_batch_size) / devices : ℕ) : ℚ)
    (gradient_accumulation_iters : ℚ)

/-- The module import, generalized over the `devices` and `micro_batch_size`
constants (lines 30-39): compute `batch_size = 128 / devices` and
`gradient_accumulation_iters = batch_size // micro_batch_size`, then run
`assert gradient_accumulation_iters > 0`; when the assert fails the import
raises `AssertionError` (`none`) and nothing further of the module runs. -/
def importModule (devices micro_batch_size : ℕ) : Option ℤ :=
  let bs : ℚ := 128 / (devices : ℚ)
  let gai : ℤ := pyFloorDiv bs (micro_batch_size : ℚ)
  if 0 < gai then some gai else none

/-- A model parameter, as far as this driver script can observe it: its
state-dict name, whether it is one of the adapter-v2 parameters attached to
the linear layers (as opposed to a weight of the base `GPT` model),
its `requires_grad` flag, and its (abstracted) tensor value. -/
structure Param where
  name : String
  isAdapterV2 : Bool
  requires_grad : Bool
  value : ℤ
deriving DecidableEq

/-- Modelled from the spec: `adapter_filter` (imported from
`lit_gpt.adapter_v2`, not part of this file) selects exactly the adapter-v2
parameters, so that checkpoints "save only the adapter deltas". -/
def adapter_filter (p : Param) : Bool := p.isAdapterV2

/-- Modelled from the spec: `mark_only_adapter_v2_as_trainable` (imported
from `lit_gpt.adapter_v2`) freezes the base weights and leaves exactly the
adapter-v2 parameters trainable: every parameter's `requires_grad` becomes
its adapter-v2 flag. -/
def mark_only_adapter_v2_as_trainable (m : List Param) : List Param :=
  m.map fun p => { p with requires_grad := p.isAdapterV2 }

/-- Modelled from the spec: `add_adapter_v2_parameters_to_linear_layers`
(imported from `lit_gpt.adapter_v2`) attaches freshly created adapter-v2
parameters to the model's linear layers; the new parameters are adapter-v2
parameters by construction and the existing ones are untouched. -/
def add_adapter_v2_parameters_to_linear_layers (m : List Param) (adapters : List Param) :
    List Param :=
  m ++ adapters.map fun p => { p with isAdapterV2 := true }

/-- Modelled from the spec: `model.load_state_dict(checkpoint, strict=False)`
(torch) overwrites the value of every parameter whose name is a key of the
checkpoint and, because of `strict=False`, silently keeps every parameter
whose name is missing from the checkpoint. -/
def load_state_dict (m : List Param) (ckpt : List (String × ℤ)) : List Param :=
  m.map fun p =>
    match ckpt.lookup p.name with
    | some v => { p with value := v }
    | none => p

/-- Source line 99, `model.apply(model._init_weights)`: every parameter value is
(re)initialized; the initializer is abstracted as a function of the name. -/
def apply_init_weights (m : List Param) (initVal : String → ℤ) : List Param :=
  m.map fun p => { p with value := initVal p.name }

/-- The model-preparation part of `main` (lines 97-105): build `GPT(config)`,
apply `_init_weights`, load the checkpoint with `strict=False`, add the
adapter-v2 parameters to the linear layers, and mark only those as
trainable. -/
def mainPrepareModel (base : List Param) (initVal : String → ℤ)
    (ckpt : List (String × ℤ)) (adapters : List Param) : List Param :=
  mark_only_adapter_v2_as_trainable
    (add_adapter_v2_parameters_to_linear_layers
      (load_state_dict (apply_init_weights base initVal) ckpt) adapters)

/-- Source line 109,
`trainable_params = [p for p in model.parameters() if p.requires_grad]`. -/
def trainable_params (m : List Param) : List Param :=
  m.filter fun p => p.requires_grad

/-- The parameter list over which `torch.optim.AdamW` is constructed
(line 111): exactly `trainable_params`. -/
def adamw_params (m : List Param) : List Param := trainable_params m

/-- Python's `f"{n:06d}"`: the decimal digits of `n` left-padded with zeros
to at least six characters. -/
def fmt06 (n : ℕ) : String :=
  let s := toString n
  String.mk (List.replicate (6 - s.length) '0') ++ s

/-- The periodic checkpoint file name `f"iter-{iter_num:06d}-ckpt.pth"`
(line 208). -/
def iterCkptName (n : ℕ) : String := "iter-" ++ fmt06 n ++ "-ckpt.pth"

/-- The final checkpoint file name (line 121). -/
def finalCkptName : String := "lit_model_adapter_finetuned.pth"

/-- An observable side effect of the training run. -/
inductive Event where
  | setLR (lr : ℚ)
  | backward (amount : ℚ) (syncSuppressed : Bool)
  | optStep (lrs : List ℚ)
  | zeroGrad
  | validate
  | save (path : String) (content : List Param)
deriving DecidableEq

/-- Recognizes a save of the final checkpoint
`lit_model_adapter_finetuned.pth`. -/
def isFinalSave : Event → Bool
  | Event.save path _ => path == finalCkptName
  | _ => false

/-- Recognizes an `optimizer.step()` event. -/
def isOptStep : Event → Bool
  | Event.optStep _ => true
  | _ => false

/-- Source line 171, `logits[-1] = logits[-1][..., :-1, :]`: drop the last time
position of the last chunk of the logits.  (A chunk is a list of per-position
logit vectors; the batch dimension is elided.) -/
def dropLastPosition {α : Type} : List (List α) → List (List α)
  | [] => []
  | [c] => [c.dropLast]
  | c :: rest => c :: dropLastPosition rest

/-- Modelled from the spec: `chunked_cross_entropy` (imported from
`lit_gpt.utils`) computes the cross-entropy loss between the logit chunks and
the targets: the per-token cross entropy `ce` over the concatenation of the
chunks zipped position-wise with the targets, averaged over the tokens. -/
def chunkedCrossEntropy (ce : List ℚ → ℤ → ℚ) (chunks : List (List (List ℚ)))
    (targets : List ℤ) : ℚ :=
  let pairs := List.zip chunks.flatten targets
  (pairs.map fun p => ce p.1 p.2).sum / pairs.length

/-- The pairs (logit vector, target token) actually scored by
`chunkedCrossEntropy`. -/
def scoredPairs (chunks : List (List (List ℚ))) (targets : List ℤ) :
    List (List ℚ × ℤ) :=
  List.zip chunks.flatten targets

/-- The configuration a run of `train` depends on: the module-level
hyperparameter constants, the model parameters, and the external data
(per-iteration model logits, per-iteration targets, the per-token cross
entropy, and the optimizer's initial per-param-group learning rates). -/
structure TrainCfg where
  learning_rate : ℚ
  warmup_steps : ℕ
  gradient_accumulation_iters : ℕ
  eval_interval : ℕ
  save_interval : ℕ
  max_iters : ℕ
  modelParams : List Param
  ce : List ℚ → ℤ → ℚ
  logitsAt : ℕ → List (List (List ℚ))
  targetsAt : ℕ → List ℤ
  lrs0 : List ℚ

/-- The mutable state of the training loop: `step_count`, the optimizer
param-group learning rates, and the trace of events emitted so far. -/
structure TrainState where
  step_count : ℕ
  lrs : List ℚ
  events : List Event
deriving DecidableEq

/-- The loss of iteration `iter_num` (lines 169-172): chunked cross entropy
of the model logits with the last time position of the last chunk dropped,
against the targets shifted left by one (`targets[..., 1:]`). -/
def lossAt (cfg : TrainCfg) (iter_num : ℕ) : ℚ :=
  chunkedCrossEntropy cfg.ce (dropLastPosition (cfg.logitsAt iter_num))
    ((cfg.targetsAt iter_num).drop 1)

/-- The param-group learning rates after the warmup block (lines 155-159):
if `step_count <= warmup_steps` every group's lr is set to
`learning_rate * step_count / warmup_steps`, otherwise they are untouched. -/
def newLRs (cfg : TrainCfg) (s : TrainState) : List ℚ :=
  if s.step_count ≤ cfg.warmup_steps then
    s.lrs.map fun _ => cfg.learning_rate * (s.step_count : ℚ) / (cfg.warmup_steps : ℚ)
  else s.lrs

/-- Value of `step_count` after one iteration: incremented exactly when the iteration
is not accumulating (lines 167, 175-178). -/
def nextStepCount (cfg : TrainCfg) (iter_num : ℕ) (sc : ℕ) : ℕ :=
  if (iter_num + 1) % cfg.gradient_accumulation_iters != 0 then sc else sc + 1

/-- The events emitted by the body of the `for` loop at iteration
`iter_num` from state `s` (lines 155-209), in program order:
warmup lr assignment, backward on `loss / gradient_accumulation_iters`
(with gradient sync suppressed exactly on accumulating iterations),
optimizer step + zero_grad on non-accumulating iterations, then validation
and periodic checkpointing gated on `step_count % eval_interval` and
`step_count % save_interval`. -/
def iterEvents (cfg : TrainCfg) (iter_num : ℕ) (s : TrainState) : List Event :=
  let ev1 : List Event :=
    if s.step_count ≤ cfg.warmup_steps then
      [Event.setLR (cfg.learning_rate * (s.step_count : ℚ) / (cfg.warmup_steps : ℚ))]
    else []
  let is_accumulating : Bool := (iter_num + 1) % cfg.gradient_accumulation_iters != 0
  let ev2 : List Event :=
    [Event.backward (lossAt cfg iter_num / (cfg.gradient_accumulation_iters : ℚ))
      is_accumulating]
  let sc := nextStepCount cfg iter_num s.step_count
  let ev3 : List Event :=
    if is_accumulating then [] else [Event.optStep (newLRs cfg s), Event.zeroGrad]
  let ev4 : List Event :=
    if !is_accumulating && sc % cfg.eval_interval == 0 then [Event.validate] else []
  let ev5 : List Event :=
    if !is_accumulating && sc % cfg.save_interval == 0 then
      [Event.save (iterCkptName iter_num) (cfg.modelParams.filter adapter_filter)]
    else []
  ev1 ++ ev2 ++ ev3 ++ ev4 ++ ev5

/-- One iteration of the `for` loop (lines 154-209). -/
def trainStep (cfg : TrainCfg) (iter_num : ℕ) (s : TrainState) : TrainState :=
  { step_count := nextStepCount cfg iter_num s.step_count,
    lrs := newLRs cfg s,
    events := s.events ++ iterEvents cfg iter_num s }

/-- State at entry of the `for` loop: `step_count = 0` (line 146), the
optimizer param-group lrs as constructed in `main` (line 111), and the
sanity-check `validate` (line 138) already in the trace. -/
def initState (cfg : TrainCfg) : TrainState :=
  { step_count := 0, lrs := cfg.lrs0, events := [Event.validate] }

/-- The loop state after the first `n` iterations. -/
def runIters (cfg : TrainCfg) (n : ℕ) : TrainState :=
  (List.range n).foldl (fun s i => trainStep cfg i s) (initState cfg)

/-- The whole `train` call: `max_iters` iterations. -/
def train (cfg : TrainCfg) : TrainState := runIters cfg cfg.max_iters

/-- The event trace of `main` from the start of `train` on (lines 117-122):
the training trace followed by the final `save_adapter_v2_checkpoint` of the
`adapter_filter`-filtered model to `out_dir / "lit_model_adapter_finetuned.pth"`. -/
def mainEvents (cfg : TrainCfg) : List Event :=
  (train cfg).events ++
    [Event.save finalCkptName (cfg.modelParams.filter adapter_filter)]

/-- A tiny concrete configuration used to exercise the loop theorems on
closed inputs: one param group at lr 1, warmup of two steps, a step on every
iteration, and empty batches. -/
def testCfg : TrainCfg :=
  { learning_rate := 1, warmup_steps := 2, gradient_accumulation_iters := 1,
    eval_interval := 1, save_interval := 1, max_iters := 1, modelParams := [],
    ce := fun _ _ => 0, logitsAt := fun _ => [], targetsAt := fun _ => [],
    lrs0 := [1] }

/-- A variant of `testCfg` with a small nonempty batch: two logit chunks
(sizes 2 and 1) and three target tokens. -/
def testCfgData : TrainCfg :=
  { testCfg with
    logitsAt := fun _ => [[[1], [2]], [[3]]],
    targetsAt := fun _ => [5, 6, 7] }

lemma gradient_accumulation_iters_eq : gradient_accumulation_iters = 64 := by
  rw [gradient_accumulation_iters, pyFloorDiv, Int.floor_eq_iff]
  norm_num [batch_size, micro_batch_size, devices]

lemma warmup_steps_eq : warmup_steps = 781 := by
  rw [warmup_steps, gradient_accumulation_iters_eq, pyFloorDiv, Int.floor_eq_iff]
  norm_num [epoch_size, micro_batch_size, devices]

lemma importModule_defaults : importModule devices micro_batch_size = some 64 := by
  have h : pyFloorDiv (128 / ((devices : ℕ) : ℚ)) ((micro_batch_size : ℕ) : ℚ) = 64 := by
    rw [pyFloorDiv, Int.floor_eq_iff]
    norm_num [devices, micro_batch_size]
  show (if 0 < pyFloorDiv (128 / ((devices : ℕ) : ℚ)) ((micro_batch_size : ℕ) : ℚ) then
      some (pyFloorDiv (128 / ((devices : ℕ) : ℚ)) ((micro_batch_size : ℕ) : ℚ))
    else none) = some 64
  rw [h]
  norm_num

lemma runIters_zero (cfg : TrainCfg) : runIters cfg 0 = initState cfg := rfl

lemma runIters_succ (cfg : TrainCfg) (n : ℕ) :
    runIters cfg (n + 1) = trainStep cfg n (runIters cfg n) := by
  unfold runIters
  rw [List.range_succ, List.foldl_append]
  rfl

lemma runIters_events_succ (cfg : TrainCfg) (n : ℕ) :
    (runIters cfg (n + 1)).events =
      (runIters cfg n).events ++ iterEvents cfg n (runIters cfg n) := by
  rw [runIters_succ]; rfl

/-- Closed form for `step_count`: after `n` iterations it is the number of
non-accumulating iterations among them, `n / gradient_accumulation_iters`. -/
lemma runIters_step_count (cfg : TrainCfg) (n : ℕ) :
    (runIters cfg n).step_count = n / cfg.gradient_accumulation_iters := by
  induction n with
  | zero => simp [runIters_zero, initState]
  | succ n ih =>
    rw [runIters_succ]
    show nextStepCount cfg n (runIters cfg n).step_count = _
    rw [nextStepCount, ih, Nat.succ_div]
    by_cases h : (n + 1) % cfg.gradient_accumulation_iters = 0
    · have hdvd : cfg.gradient_accumulation_iters ∣ (n + 1) := Nat.dvd_of_mod_eq_zero h
      simp [h, hdvd]
    · have hndvd : ¬ cfg.gradient_accumulation_iters ∣ (n + 1) := by
        intro hd
        exact h (Nat.mod_eq_zero_of_dvd hd)
      simp [h, hndvd]

/-- Every event in the trace of a run is either the initial sanity-check
`validate` or was emitted by the body of some iteration `i < n`. -/
lemma mem_runIters_events (cfg : TrainCfg) (n : ℕ) (e : Event)
    (he : e ∈ (runIters cfg n).events) :
    e = Event.validate ∨ ∃ i, i < n ∧ e ∈ iterEvents cfg i (runIters cfg i) := by
  induction n with
  | zero =>
    left
    simpa [runIters_zero, initState] using he
  | succ n ih =>
    rw [runIters_events_succ, List.mem_append] at he
    rcases he with he | he
    · rcases ih he with h | ⟨i, hi, hmem⟩
      · exact Or.inl h
      · exact Or.inr ⟨i, Nat.lt_succ_of_lt hi, hmem⟩
    · exact Or.inr ⟨n, Nat.lt_succ_self n, he⟩

lemma runIters_lrs_succ (cfg : TrainCfg) (n : ℕ) :
    (runIters cfg (n + 1)).lrs = newLRs cfg (runIters cfg n) := by
  rw [runIters_succ]; rfl

lemma runIters_sc_succ (cfg : TrainCfg) (n : ℕ) :
    (runIters cfg (n + 1)).step_count =
      nextStepCount cfg n (runIters cfg n).step_count := by
  rw [runIters_succ]; rfl

lemma nextStepCount_acc (cfg : TrainCfg) (i sc : ℕ)
    (h : (i + 1) % cfg.gradient_accumulation_iters ≠ 0) :
    nextStepCount cfg i sc = sc := by
  rw [nextStepCount, if_pos]
  simpa [bne_iff_ne] using h

lemma nextStepCount_nonacc (cfg : TrainCfg) (i sc : ℕ)
    (h : (i + 1) % cfg.gradient_accumulation_iters = 0) :
    nextStepCount cfg i sc = sc + 1 := by
  rw [nextStepCount, if_neg]
  simp [bne_iff_ne, h]

/-- On an accumulating iteration the body only assigns the warmup lr and
takes the backward pass (with gradient sync suppressed). -/
lemma iterEvents_acc (cfg : TrainCfg) (i : ℕ) (s : TrainState)
    (h : (i + 1) % cfg.gradient_accumulation_iters ≠ 0) :
    iterEvents cfg i s =
      (if s.step_count ≤ cfg.warmup_steps then
        [Event.setLR (cfg.learning_rate * (s.step_count : ℚ) / (cfg.warmup_steps : ℚ))]
      else []) ++
      [Event.backward
        (lossAt cfg i / (cfg.gradient_accumulation_iters : ℚ)) true] := by
  have hb : ((i + 1) % cfg.gradient_accumulation_iters != 0) = true := by
    simpa [bne_iff_ne] using h
  rw [iterEvents]
  simp only [hb]
  simp

/-- On a non-accumulating iteration the body assigns the warmup lr, takes
the backward pass with sync enabled, steps the optimizer and zeroes the
gradients, then validates and checkpoints according to the incremented
`step_count`. -/
lemma iterEvents_nonacc (cfg : TrainCfg) (i : ℕ) (s : TrainState)
    (h : (i + 1) % cfg.gradient_accumulation_iters = 0) :
    iterEvents cfg i s =
      (if s.step_count ≤ cfg.warmup_steps then
        [Event.setLR (cfg.learning_rate * (s.step_count : ℚ) / (cfg.warmup_steps : ℚ))]
      else []) ++
      [Event.backward
        (lossAt cfg i / (cfg.gradient_accumulation_iters : ℚ)) false] ++
      [Event.optStep (newLRs cfg s), Event.zeroGrad] ++
      (if (s.step_count + 1) % cfg.eval_interval = 0 then [Event.validate] else []) ++
      (if (s.step_count + 1) % cfg.save_interval = 0 then
        [Event.save (iterCkptName i) (cfg.modelParams.filter adapter_filter)]
      else []) := by
  have hb : ((i + 1) % cfg.gradient_accumulation_iters != 0) = false := by
    simp [bne_iff_ne, h]
  rw [iterEvents]
  simp only [hb, nextStepCount_nonacc cfg i s.step_count h]
  simp

lemma head?_iterCkptName (n : ℕ) : (iterCkptName n).data.head? = some 'i' := by
  rw [iterCkptName, String.data_append, String.data_append]
  rfl

lemma iterCkptName_ne_final (n : ℕ) : iterCkptName n ≠ finalCkptName := by
  intro h
  have h2 : (iterCkptName n).data.head? = finalCkptName.data.head? := by rw [h]
  rw [head?_iterCkptName] at h2
  exact absurd h2 (by decide)

/-- Any checkpoint save emitted inside the loop body is the periodic one:
its path is `iter-{i:06d}-ckpt.pth` and its content is the
`adapter_filter`-filtered model. -/
lemma save_in_iterEvents (cfg : TrainCfg) (i : ℕ) (s : TrainState)
    (path : String) (c : List Param)
    (h : Event.save path c ∈ iterEvents cfg i s) :
    path = iterCkptName i ∧ c = cfg.modelParams.filter adapter_filter := by
  by_cases hacc : (i + 1) % cfg.gradient_accumulation_iters = 0
  · rw [iterEvents_nonacc cfg i s hacc] at h
    by_cases hsc : s.step_count ≤ cfg.warmup_steps <;>
      by_cases h4 : (s.step_count + 1) % cfg.eval_interval = 0 <;>
        by_cases h5 : (s.step_count + 1) % cfg.save_interval = 0 <;>
          simp [hsc, h4, h5] at h <;>
          exact ⟨h.1, h.2⟩
  · rw [iterEvents_acc cfg i s hacc] at h
    by_cases hsc : s.step_count ≤ cfg.warmup_steps <;> simp [hsc] at h

lemma runIters_no_finalSave (cfg : TrainCfg) (n : ℕ) :
    ∀ e ∈ (runIters cfg n).events, isFinalSave e = false := by
  intro e he
  rcases mem_runIters_events cfg n e he with rfl | ⟨i, _, hmem⟩
  · rfl
  · cases e with
    | setLR lr => rfl
    | backward a b => rfl
    | optStep ls => rfl
    | zeroGrad => rfl
    | validate => rfl
    | save path c =>
      have hchar := save_in_iterEvents cfg i _ path c hmem
      rw [isFinalSave, hchar.1]
      simp [iterCkptName_ne_final i]

/-- Learning rates after a full warmup: once `step_count` has exceeded
`warmup_steps`, every param-group lr equals `learning_rate`. -/
lemma lrs_after_warmup (cfg : TrainCfg) (hw : 0 < cfg.warmup_steps) :
    ∀ n, cfg.warmup_steps < (runIters cfg n).step_count →
      ∀ q ∈ (runIters cfg n).lrs, q = cfg.learning_rate := by
  intro n
  induction n with
  | zero =>
    intro h
    rw [runIters_zero] at h
    exact absurd h (by simp [initState])
  | succ n ih =>
    intro h q hq
    rw [runIters_sc_succ] at h
    rw [runIters_lrs_succ] at hq
    by_cases hsc : (runIters cfg n).step_count ≤ cfg.warmup_steps
    · have hle : nextStepCount cfg n (runIters cfg n).step_count ≤
          (runIters cfg n).step_count + 1 := by
        rw [nextStepCount]; split <;> omega
      have hsceq : (runIters cfg n).step_count = cfg.warmup_steps := by omega
      rw [newLRs, if_pos hsc, hsceq, List.mem_map] at hq
      obtain ⟨_, _, rfl⟩ := hq
      rw [mul_div_assoc, div_self, mul_one]
      exact Nat.cast_ne_zero.mpr (Nat.pos_iff_ne_zero.mp hw)
    · rw [newLRs, if_neg hsc] at hq
      exact ih (not_le.mp hsc) q hq

/-- During the first `gradient_accumulation_iters - 1` iterations no
optimizer step happens. -/
lemma find?_optStep_lt_gai (cfg : TrainCfg) (n : ℕ)
    (hn : n < cfg.gradient_accumulation_iters) :
    (runIters cfg n).events.find? isOptStep = none := by
  induction n with
  | zero => rfl
  | succ n ih =>
    have hn' : n < cfg.gradient_accumulation_iters := Nat.lt_of_succ_lt hn
    rw [runIters_events_succ, List.find?_append, ih hn', Option.none_or]
    have hacc : (n + 1) % cfg.gradient_accumulation_iters ≠ 0 := by
      rw [Nat.mod_eq_of_lt hn]
      omega
    rw [iterEvents_acc cfg n _ hacc]
    by_cases hsc : (runIters cfg n).step_count ≤ cfg.warmup_steps
    · rw [if_pos hsc]
      rfl
    · rw [if_neg hsc]
      rfl

/-- Once `find?` hits an event, running further iterations does not change
the result. -/
lemma find?_optStep_extend (cfg : TrainCfg) (n : ℕ) (x : Event)
    (hx : (runIters cfg n).events.find? isOptStep = some x) :
    ∀ k, (runIters cfg (n + k)).events.find? isOptStep = some x := by
  intro k
  induction k with
  | zero => exact hx
  | succ k ih =>
    rw [show n + (k + 1) = (n + k) + 1 by omega, runIters_events_succ,
      List.find?_append, ih]
    rfl

/-- Dropping the last time position of the last chunk leaves every position
`n` with `n + 1` still in range untouched in the concatenation. -/
lemma dropLastPosition_flatten_getElem {α : Type} (L : List (List α)) (n : ℕ)
    (hn : n + 1 < L.flatten.length) :
    (dropLastPosition L).flatten[n]? = L.flatten[n]? := by
  induction L generalizing n with
  | nil => simp at hn
  | cons c rest ih =>
    cases rest with
    | nil =>
      simp only [List.flatten_cons, List.flatten_nil, List.append_nil] at hn
      show (c.dropLast ++ List.flatten [])[n]? = (c ++ List.flatten [])[n]?
      simp only [List.flatten_nil, List.append_nil]
      rw [List.dropLast_eq_take, List.getElem?_take, if_pos (by omega)]
    | cons d rest' =>
      show (c ++ (dropLastPosition (d :: rest')).flatten)[n]? =
        (c ++ (d :: rest').flatten)[n]?
      simp only [List.flatten_cons, List.length_append] at hn
      by_cases hcn : n < c.length
      · rw [List.getElem?_append, List.getElem?_append, if_pos hcn, if_pos hcn]
      · have hge : c.length ≤ n := le_of_not_lt hcn
        rw [List.getElem?_append_right hge, List.getElem?_append_right hge]
        have hlen2 : (d :: rest').flatten.length = d.length + rest'.flatten.length := by
          simp
        refine ih (n - c.length) ?_
        omega

/-- C8: with the default constants (`devices = 1`, `micro_batch_size = 2`,
`epoch_size = 50000`, `num_epochs = 5`) the derived hyperparameters evaluate
exactly to `batch_size = 128`, `gradient_accumulation_iters = 64`,
`max_iters = 125000` and `warmup_steps = 781`. -/
theorem derived_hparams_values :
    devices = 1 ∧ micro_batch_size = 2 ∧ epoch_size = 50000 ∧ num_epochs = 5 ∧
      batch_size = 128 ∧ gradient_accumulation_iters = 64 ∧
      max_iters = 125000 ∧ warmup_steps = 781 := by
  refine ⟨rfl, rfl, rfl, rfl, ?_, gradient_accumulation_iters_eq, by decide,
    warmup_steps_eq⟩
  norm_num [batch_size, devices]

/-- C10: the module can only be imported when
`batch_size // micro_batch_size > 0`: the top-level assert fails otherwise,
and on a successful import `gradient_accumulation_iters` is positive (in
particular nonzero), so the modulo in the accumulation test never divides
by zero. -/
theorem import_asserts_gai_pos (d m : ℕ) :
    ((importModule d m).isSome ↔ 0 < pyFloorDiv (128 / (d : ℚ)) (m : ℚ)) ∧
      ∀ g : ℤ, importModule d m = some g → 0 < g ∧ g ≠ 0 := by
  constructor
  · unfold importModule
    by_cases h : 0 < pyFloorDiv (128 / (d : ℚ)) (m : ℚ) <;> simp [h]
  · intro g hg
    unfold importModule at hg
    by_cases h : 0 < pyFloorDiv (128 / (d : ℚ)) (m : ℚ)
    · rw [if_pos h] at hg
      cases hg
      exact ⟨h, ne_of_gt h⟩
    · rw [if_neg h] at hg
      cases hg

theorem import_asserts_gai_pos_witness : 0 < (64 : ℤ) ∧ (64 : ℤ) ≠ 0 :=
  (import_asserts_gai_pos 1 2).2 64 importModule_defaults

/-- C2: after `add_adapter_v2_parameters_to_linear_layers` and
`mark_only_adapter_v2_as_trainable`, every base weight has
`requires_grad = False`, exactly the adapter-v2 parameters have
`requires_grad = True`, and the AdamW optimizer is constructed over exactly
the parameters with `requires_grad = True` (equivalently, exactly the
adapter-v2 parameters).  All of this holds at the point just before
`fabric.setup` is called (line 112). -/
theorem trainable_partition (base : List Param) (initVal : String → ℤ)
    (ckpt : List (String × ℤ)) (adapters : List Param) :
    (∀ p ∈ mainPrepareModel base initVal ckpt adapters,
        p.requires_grad = p.isAdapterV2) ∧
      adamw_params (mainPrepareModel base initVal ckpt adapters) =
        (mainPrepareModel base initVal ckpt adapters).filter
          (fun p => p.requires_grad) ∧
      adamw_params (mainPrepareModel base initVal ckpt adapters) =
        (mainPrepareModel base initVal ckpt adapters).filter adapter_filter := by
  have hmem : ∀ p ∈ mainPrepareModel base initVal ckpt adapters,
      p.requires_grad = p.isAdapterV2 := by
    intro p hp
    rw [mainPrepareModel, mark_only_adapter_v2_as_trainable, List.mem_map] at hp
    obtain ⟨q, _, rfl⟩ := hp
    rfl
  refine ⟨hmem, rfl, ?_⟩
  rw [adamw_params, trainable_params]
  exact List.filter_congr fun p hp => by rw [adapter_filter, hmem p hp]

theorem trainable_partition_witness :
    (Param.mk "w" true true 7).requires_grad = (Param.mk "w" true true 7).isAdapterV2 :=
  (trainable_partition [] (fun _ => 0) [] [Param.mk "w" false false 7]).1
    (Param.mk "w" true true 7) (by decide)

/-- C6: `main` initializes the model weights, then loads
`checkpoint_dir/"lit_model.pth"` with `strict=False`, and only then adds the
adapter-v2 parameters.  Consequently the prepared model is the base
parameters (checkpoint value when the name is a checkpoint key, initialized
value otherwise) followed by the adapter parameters, whose values the load
never overwrites. -/
theorem load_before_adapters (base : List Param) (initVal : String → ℤ)
    (ckpt : List (String × ℤ)) (adapters : List Param) :
    mainPrepareModel base initVal ckpt adapters =
      (base.map fun p =>
        match ckpt.lookup p.name with
        | some v => { p with value := v, requires_grad := p.isAdapterV2 }
        | none => { p with value := initVal p.name, requires_grad := p.isAdapterV2 }) ++
      (adapters.map fun a =>
        { a with isAdapterV2 := true, requires_grad := true }) ∧
      (∀ p ∈ base, ckpt.lookup p.name = none →
        ({ p with value := initVal p.name, requires_grad := p.isAdapterV2 } : Param) ∈
          mainPrepareModel base initVal ckpt adapters) ∧
      ∀ a ∈ adapters,
        ({ a with isAdapterV2 := true, requires_grad := true } : Param) ∈
          mainPrepareModel base initVal ckpt adapters := by
  have hstruct : mainPrepareModel base initVal ckpt adapters =
      (base.map fun p =>
        match ckpt.lookup p.name with
        | some v => { p with value := v, requires_grad := p.isAdapterV2 }
        | none => { p with value := initVal p.name, requires_grad := p.isAdapterV2 }) ++
      (adapters.map fun a =>
        { a with isAdapterV2 := true, requires_grad := true }) := by
    rw [mainPrepareModel, mark_only_adapter_v2_as_trainable,
      add_adapter_v2_parameters_to_linear_layers, load_state_dict,
      apply_init_weights, List.map_append, List.map_map, List.map_map,
      List.map_map]
    congr 1
    refine List.map_congr_left fun p _ => ?_
    simp only [Function.comp]
    cases h : ckpt.lookup p.name <;> simp [h]
  refine ⟨hstruct, ?_, ?_⟩
  · intro p hp hnone
    rw [hstruct, List.mem_append]
    left
    rw [List.mem_map]
    exact ⟨p, hp, by rw [hnone]⟩
  · intro a ha
    rw [hstruct, List.mem_append]
    right
    rw [List.mem_map]
    exact ⟨a, ha, rfl⟩

theorem load_before_adapters_witness :
    Param.mk "base.w" false true 0 ∈ [Param.mk "base.w" false true 0] ∧
      List.lookup "base.w" ([] : List (String × ℤ)) = none ∧
      Param.mk "base.w" false false 9 ∈
        mainPrepareModel [Param.mk "base.w" false true 0] (fun _ => 9) [] [] :=
  ⟨by decide, by decide,
    (load_before_adapters [Param.mk "base.w" false true 0] (fun _ => 9) [] []).2.1
      (Param.mk "base.w" false true 0) (by decide) (by decide)⟩

/-- C3: in the training loop, the optimizer step followed by `zero_grad` is
executed iff `(iter_num + 1) % gradient_accumulation_iters == 0`; the
backward pass is taken on every iteration on
`loss / gradient_accumulation_iters` with gradient sync suppressed exactly
on accumulating iterations; and `step_count` is incremented by exactly one
on stepping iterations and unchanged otherwise. -/
theorem grad_accum_loop (cfg : TrainCfg) (n : ℕ) :
    ((∃ pre post, iterEvents cfg n (runIters cfg n) =
          pre ++ [Event.optStep (newLRs cfg (runIters cfg n)), Event.zeroGrad] ++ post) ↔
        (n + 1) % cfg.gradient_accumulation_iters = 0) ∧
      Event.backward (lossAt cfg n / (cfg.gradient_accumulation_iters : ℚ))
          ((n + 1) % cfg.gradient_accumulation_iters != 0) ∈
        iterEvents cfg n (runIters cfg n) ∧
      (runIters cfg (n + 1)).step_count =
        (if (n + 1) % cfg.gradient_accumulation_iters = 0 then
          (runIters cfg n).step_count + 1
        else (runIters cfg n).step_count) := by
  by_cases hacc : (n + 1) % cfg.gradient_accumulation_iters = 0
  · refine ⟨⟨fun _ => hacc, fun _ => ?_⟩, ?_, ?_⟩
    · rw [iterEvents_nonacc cfg n (runIters cfg n) hacc]
      exact ⟨(if (runIters cfg n).step_count ≤ cfg.warmup_steps then
          [Event.setLR (cfg.learning_rate * ((runIters cfg n).step_count : ℚ) /
            (cfg.warmup_steps : ℚ))] else []) ++
        [Event.backward
          (lossAt cfg n / (cfg.gradient_accumulation_iters : ℚ)) false],
        (if ((runIters cfg n).step_count + 1) % cfg.eval_interval = 0 then
          [Event.validate] else []) ++
        (if ((runIters cfg n).step_count + 1) % cfg.save_interval = 0 then
          [Event.save (iterCkptName n) (cfg.modelParams.filter adapter_filter)]
        else []),
        by simp [List.append_assoc]⟩
    · rw [iterEvents_nonacc cfg n (runIters cfg n) hacc]
      simp [hacc, bne_iff_ne]
    · rw [runIters_sc_succ, nextStepCount_nonacc cfg n _ hacc, if_pos hacc]
  · refine ⟨⟨fun ⟨pre, post, hdec⟩ => ?_, fun h => absurd h hacc⟩, ?_, ?_⟩
    · exfalso
      have hmem : Event.optStep (newLRs cfg (runIters cfg n)) ∈
          iterEvents cfg n (runIters cfg n) := by
        rw [hdec]
        simp
      rw [iterEvents_acc cfg n (runIters cfg n) hacc] at hmem
      rcases List.mem_append.mp hmem with h1 | h2
      · split at h1 <;> simp_all
      · simp at h2
    · rw [iterEvents_acc cfg n (runIters cfg n) hacc]
      have hb : ((n + 1) % cfg.gradient_accumulation_iters != 0) = true := by
        simpa [bne_iff_ne] using hacc
      rw [hb]
      simp
    · rw [runIters_sc_succ, nextStepCount_acc cfg n _ hacc, if_neg hacc]

/-- C4: learning-rate warmup is linear: on every iteration entered with
`step_count <= warmup_steps` every param-group lr is set to
`learning_rate * step_count / warmup_steps`; on every iteration entered with
`step_count > warmup_steps` the lrs are not modified and all equal
`learning_rate`. -/
theorem warmup_schedule (cfg : TrainCfg) (hw : 0 < cfg.warmup_steps) (n : ℕ) :
    ((runIters cfg n).step_count ≤ cfg.warmup_steps →
      (runIters cfg (n + 1)).lrs =
          (runIters cfg n).lrs.map (fun _ =>
            cfg.learning_rate * ((runIters cfg n).step_count : ℚ) /
              (cfg.warmup_steps : ℚ)) ∧
        Event.setLR
            (cfg.learning_rate * ((runIters cfg n).step_count : ℚ) /
              (cfg.warmup_steps : ℚ)) ∈
          iterEvents cfg n (runIters cfg n)) ∧
    (cfg.warmup_steps < (runIters cfg n).step_count →
      (runIters cfg (n + 1)).lrs = (runIters cfg n).lrs ∧
        (∀ q : ℚ, Event.setLR q ∉ iterEvents cfg n (runIters cfg n)) ∧
        ∀ q ∈ (runIters cfg n).lrs, q = cfg.learning_rate) := by
  constructor
  · intro hsc
    constructor
    · rw [runIters_lrs_succ, newLRs, if_pos hsc]
    · rw [iterEvents]
      simp [hsc]
  · intro hgt
    have hsc : ¬ (runIters cfg n).step_count ≤ cfg.warmup_steps := not_le.mpr hgt
    refine ⟨by rw [runIters_lrs_succ, newLRs, if_neg hsc], ?_,
      lrs_after_warmup cfg hw n hgt⟩
    intro q hq
    by_cases hacc : (n + 1) % cfg.gradient_accumulation_iters = 0
    · rw [iterEvents_nonacc cfg n (runIters cfg n) hacc] at hq
      rw [if_neg hsc] at hq
      by_cases h4 : ((runIters cfg n).step_count + 1) % cfg.eval_interval = 0 <;>
        by_cases h5 : ((runIters cfg n).step_count + 1) % cfg.save_interval = 0 <;>
          simp [h4, h5] at hq
    · rw [iterEvents_acc cfg n (runIters cfg n) hacc, if_neg hsc] at hq
      simp at hq

theorem warmup_schedule_witness :
    0 < testCfg.warmup_steps ∧
      ((runIters testCfg 1).lrs =
          (runIters testCfg 0).lrs.map (fun _ =>
            testCfg.learning_rate * ((runIters testCfg 0).step_count : ℚ) /
              (testCfg.warmup_steps : ℚ)) ∧
        Event.setLR
            (testCfg.learning_rate * ((runIters testCfg 0).step_count : ℚ) /
              (testCfg.warmup_steps : ℚ)) ∈
          iterEvents testCfg 0 (runIters testCfg 0)) :=
  ⟨by decide, (warmup_schedule testCfg (by decide) 0).1 (by decide)⟩

/-- C5: `validate` runs during iteration `n` iff the iteration completes an
optimizer step and the incremented `step_count` is a multiple of
`eval_interval`; a checkpoint named `iter-{n:06d}-ckpt.pth` is saved iff the
iteration completes an optimizer step and the incremented `step_count` is a
multiple of `save_interval`; additionally `validate` is called once before
the loop as a sanity check. -/
theorem validate_save_schedule (cfg : TrainCfg) (n : ℕ) :
    (Event.validate ∈ iterEvents cfg n (runIters cfg n) ↔
      (n + 1) % cfg.gradient_accumulation_iters = 0 ∧
        (runIters cfg (n + 1)).step_count % cfg.eval_interval = 0) ∧
    ((∃ c, Event.save (iterCkptName n) c ∈ iterEvents cfg n (runIters cfg n)) ↔
      (n + 1) % cfg.gradient_accumulation_iters = 0 ∧
        (runIters cfg (n + 1)).step_count % cfg.save_interval = 0) ∧
    (initState cfg).events = [Event.validate] := by
  refine ⟨?_, ?_, rfl⟩
  · by_cases hacc : (n + 1) % cfg.gradient_accumulation_iters = 0
    · rw [iterEvents_nonacc cfg n (runIters cfg n) hacc,
        runIters_sc_succ, nextStepCount_nonacc cfg n _ hacc]
      by_cases hsc : (runIters cfg n).step_count ≤ cfg.warmup_steps <;>
        by_cases h4 : ((runIters cfg n).step_count + 1) % cfg.eval_interval = 0 <;>
          by_cases h5 : ((runIters cfg n).step_count + 1) % cfg.save_interval = 0 <;>
            simp [hsc, h4, h5, hacc]
    · rw [iterEvents_acc cfg n (runIters cfg n) hacc]
      by_cases hsc : (runIters cfg n).step_count ≤ cfg.warmup_steps <;>
        simp [hsc, hacc]
  · by_cases hacc : (n + 1) % cfg.gradient_accumulation_iters = 0
    · rw [iterEvents_nonacc cfg n (runIters cfg n) hacc,
        runIters_sc_succ, nextStepCount_nonacc cfg n _ hacc]
      by_cases hsc : (runIters cfg n).step_count ≤ cfg.warmup_steps <;>
        by_cases h4 : ((runIters cfg n).step_count + 1) % cfg.eval_interval = 0 <;>
          by_cases h5 : ((runIters cfg n).step_count + 1) % cfg.save_interval = 0 <;>
            simp [hsc, h4, h5, hacc]
    · rw [iterEvents_acc cfg n (runIters cfg n) hacc]
      by_cases hsc : (runIters cfg n).step_count ≤ cfg.warmup_steps <;>
        simp [hsc, hacc]

/-- C1: `main` writes exactly one checkpoint named
`lit_model_adapter_finetuned.pth` (the final one), and every checkpoint
written by `save_adapter_v2_checkpoint` — final or periodic — contains
exactly the `adapter_filter`-selected parameters; no base (non-adapter)
weight is ever written to a saved checkpoint. -/
theorem final_checkpoint_unique (cfg : TrainCfg) :
    ((mainEvents cfg).filter isFinalSave).length = 1 ∧
      ∀ e ∈ mainEvents cfg, ∀ path c, e = Event.save path c →
        c = cfg.modelParams.filter adapter_filter ∧
          ∀ p ∈ c, p.isAdapterV2 = true := by
  constructor
  · rw [mainEvents, List.filter_append]
    have h1 : (train cfg).events.filter isFinalSave = [] :=
      List.filter_eq_nil_iff.mpr fun e he => by
        rw [runIters_no_finalSave cfg cfg.max_iters e he]
        exact Bool.false_ne_true
    rw [h1]
    simp [isFinalSave]
  · intro e he path c hec
    subst hec
    have hc : c = cfg.modelParams.filter adapter_filter := by
      rw [mainEvents, List.mem_append] at he
      rcases he with he | he
      · rcases mem_runIters_events cfg cfg.max_iters _ he with h | ⟨i, _, hmem⟩
        · exact absurd h (by simp)
        · exact (save_in_iterEvents cfg i _ path c hmem).2
      · simp only [List.mem_singleton, Event.save.injEq] at he
        exact he.2
    refine ⟨hc, fun p hp => ?_⟩
    rw [hc] at hp
    exact (List.mem_filter.mp hp).2

theorem final_checkpoint_unique_witness :
    Event.save finalCkptName [] ∈ mainEvents testCfg ∧
      ([] : List Param) = testCfg.modelParams.filter adapter_filter ∧
        ∀ p ∈ ([] : List Param), p.isAdapterV2 = true :=
  ⟨by decide,
    (final_checkpoint_unique testCfg).2 (Event.save finalCkptName []) (by decide)
      finalCkptName [] rfl⟩

/-- C9: whenever `warmup_steps > 0` and
`0 < gradient_accumulation_iters <= max_iters`, the very first
`optimizer.step()` of the run executes with learning rate exactly `0` in
every param group: `step_count` is still `0` when the warmup lr is assigned
during each of the first `gradient_accumulation_iters` iterations, and it is
only incremented after the step. -/
theorem first_optimizer_step_lr_zero (cfg : TrainCfg)
    (hw : 0 < cfg.warmup_steps) (hg : 0 < cfg.gradient_accumulation_iters)
    (hm : cfg.gradient_accumulation_iters ≤ cfg.max_iters) :
    ∃ lrs : List ℚ,
      (train cfg).events.find? isOptStep = some (Event.optStep lrs) ∧
        ∀ q ∈ lrs, q = 0 := by
  obtain ⟨g, hgeq⟩ : ∃ g, cfg.gradient_accumulation_iters = g + 1 :=
    ⟨cfg.gradient_accumulation_iters - 1, by omega⟩
  have hsc0 : (runIters cfg g).step_count = 0 := by
    rw [runIters_step_count, hgeq]
    exact Nat.div_eq_of_lt (by omega)
  have hacc : (g + 1) % cfg.gradient_accumulation_iters = 0 := by
    rw [hgeq, Nat.mod_self]
  have hlr0 : newLRs cfg (runIters cfg g) =
      (runIters cfg g).lrs.map fun _ => (0 : ℚ) := by
    rw [newLRs, if_pos (by rw [hsc0]; exact Nat.zero_le _), hsc0]
    simp
  have hkey : (runIters cfg (g + 1)).events.find? isOptStep =
      some (Event.optStep ((runIters cfg g).lrs.map fun _ => (0 : ℚ))) := by
    rw [runIters_events_succ, List.find?_append,
      find?_optStep_lt_gai cfg g (by omega), Option.none_or,
      iterEvents_nonacc cfg g _ hacc,
      if_pos (by rw [hsc0]; exact Nat.zero_le _), hlr0]
    rfl
  refine ⟨(runIters cfg g).lrs.map fun _ => (0 : ℚ), ?_, ?_⟩
  · have hext := find?_optStep_extend cfg (g + 1) _ hkey
      (cfg.max_iters - (g + 1))
    rw [show (g + 1) + (cfg.max_iters - (g + 1)) = cfg.max_iters by omega] at hext
    exact hext
  · intro q hq
    rw [List.mem_map] at hq
    obtain ⟨_, _, rfl⟩ := hq
    rfl

theorem first_optimizer_step_lr_zero_witness :
    (0 < testCfg.warmup_steps ∧ 0 < testCfg.gradient_accumulation_iters ∧
        testCfg.gradient_accumulation_iters ≤ testCfg.max_iters) ∧
      ∃ lrs : List ℚ,
        (train testCfg).events.find? isOptStep = some (Event.optStep lrs) ∧
          ∀ q ∈ lrs, q = 0 :=
  ⟨by decide,
    first_optimizer_step_lr_zero testCfg (by decide) (by decide) (by decide)⟩

/-- C7: the per-iteration loss is the chunked cross entropy of the logits
with the last time position dropped from the final chunk against the targets
shifted left by one; the pair scored at position `n` is (logit at position
`n`, target token at position `n + 1`). -/
theorem shifted_loss_alignment (cfg : TrainCfg) (i : ℕ)
    (hlen : (cfg.logitsAt i).flatten.length = (cfg.targetsAt i).length) :
    lossAt cfg i =
        chunkedCrossEntropy cfg.ce (dropLastPosition (cfg.logitsAt i))
          ((cfg.targetsAt i).drop 1) ∧
      ∀ n : ℕ,
        (scoredPairs (dropLastPosition (cfg.logitsAt i))
            ((cfg.targetsAt i).drop 1))[n]? =
          ((cfg.logitsAt i).flatten[n]?).bind fun v =>
            ((cfg.targetsAt i)[n + 1]?).map fun t => (v, t) := by
  refine ⟨rfl, fun n => ?_⟩
  rw [scoredPairs,
    show List.zip (dropLastPosition (cfg.logitsAt i)).flatten
        ((cfg.targetsAt i).drop 1) =
      List.zipWith Prod.mk (dropLastPosition (cfg.logitsAt i)).flatten
        ((cfg.targetsAt i).drop 1) from rfl,
    List.getElem?_zipWith, List.getElem?_drop,
    show (1 : ℕ) + n = n + 1 by omega]
  by_cases hn : n + 1 < (cfg.logitsAt i).flatten.length
  · rw [dropLastPosition_flatten_getElem (cfg.logitsAt i) n hn]
    have h1 := List.getElem?_eq_getElem (show n < (cfg.logitsAt i).flatten.length by omega)
    have h2 := List.getElem?_eq_getElem (show n + 1 < (cfg.targetsAt i).length by omega)
    rw [h1, h2]
    rfl
  · rw [List.getElem?_eq_none (show (cfg.targetsAt i).length ≤ n + 1 by omega)]
    cases hX : (dropLastPosition (cfg.logitsAt i)).flatten[n]? <;>
      cases hF : (cfg.logitsAt i).flatten[n]? <;> simp

theorem shifted_loss_alignment_witness :
    (testCfgData.logitsAt 0).flatten.length = (testCfgData.targetsAt 0).length ∧
      (scoredPairs (dropLastPosition (testCfgData.logitsAt 0))
          ((testCfgData.targetsAt 0).drop 1))[0]? =
        ((testCfgData.logitsAt 0).flatten[0]?).bind fun v =>
          ((testCfgData.targetsAt 0)[0 + 1]?).map fun t => (v, t) :=
  ⟨by decide, (shifted_loss_alignment testCfgData 0 (by decide)).2 0⟩

end AdapterV2
